import Mathlib

/-!
Verification of the zenix-memory indexing-and-ranking engine.

This file gives a shallow embedding of the core algorithms of the
repository (text normalization shared between index build and query
time, the index builder, bilingual keyword extraction, discovery
scoring, and the query-time ranking / cutoff / snippet logic of the
result formatter), and proves or refutes the specified properties
about them.  Every definition is translated from the Python source;
machine text is modelled as Lean `String`s (sequences of Unicode
scalar values, matching Python 3 `str`), counters as `Nat`, and the
few quantities the source computes in double-precision floats are
modelled exactly (rationals for probabilities and thresholds, `Real.logb`
for the base-2 logarithm), with comments at each such point.
-/

namespace PyModel

/-- Python `str.lower()`, modelled for ASCII text (`Char.toLower`
lowercases exactly the ASCII range `A`-`Z`; the inputs exercised in
this development are ASCII). -/
def lower (s : String) : String := String.mk (s.toList.map Char.toLower)

/-- Tail of `splitChar`: accumulate the current piece (reversed). -/
def splitCharAux (sep : Char) : List Char → List Char → List String
  | [], acc => [String.mk acc.reverse]
  | c :: cs, acc =>
    if c = sep then String.mk acc.reverse :: splitCharAux sep cs []
    else splitCharAux sep cs (c :: acc)

/-- Python `s.split(sep)` for a single-character separator: pieces
between occurrences of `sep`, keeping empty pieces (so `""` splits to
`[""]`). -/
def splitChar (sep : Char) (s : String) : List String := splitCharAux sep s.toList []

/-- Python `line.rstrip(c)` for a single character: strip every
trailing occurrence of `c`. -/
def rstrip (c : Char) (s : String) : String :=
  String.mk ((s.toList.reverse.dropWhile (· = c)).reverse)

/-- A Python regex word character (`\w`), modelled for ASCII text:
ASCII letters, digits, or underscore.  (Python `\w` additionally
matches non-ASCII word characters; no claim in this development
depends on those.) -/
def isWordChar (c : Char) : Bool := c.isAlphanum || c = '_'

/-- Split a character list into maximal runs of characters that agree
on the value of `p`, each run tagged with that value.  Runs appear in
text order. -/
def runs (p : Char → Bool) : List Char → List (Bool × List Char)
  | [] => []
  | c :: cs =>
    match runs p cs with
    | [] => [(p c, [c])]
    | (b, r) :: rest =>
      if p c = b then (b, c :: r) :: rest else (p c, [c]) :: (b, r) :: rest

/-- Model of `re.findall(r'\b[CLASS]{k,}\b', s)` for a character class
`cls` contained in `\w`: the maximal `\w`-runs of `s` that consist
entirely of `cls` characters and have length at least `k`, in text
order.  (A `\b`-delimited match of such a pattern is exactly a whole
maximal `\w`-run, because no boundary exists inside a `\w`-run.) -/
def findallBounded (cls : Char → Bool) (k : Nat) (s : String) : List String :=
  ((runs isWordChar s.toList).filter
    (fun r => r.1 && r.2.all cls && decide (k ≤ r.2.length))).map
    (fun r => String.mk r.2)

/-- Python `l[:k]` for an `int` bound `k`: a nonnegative bound keeps the
first `k` elements, a negative bound drops `-k` elements from the end. -/
def pyTake {α : Type} (k : Int) (l : List α) : List α :=
  if 0 ≤ k then l.take k.toNat else l.take (l.length - (-k).toNat)

/-- Python `s[a:b]` for `0 ≤ a ≤ b` (character slicing). -/
def slice (s : String) (a b : Nat) : String :=
  String.mk ((s.toList.drop a).take (b - a))

/-- Python `s.split()` with no argument: split on whitespace runs,
dropping empty pieces. -/
def splitWS (s : String) : List String :=
  (s.split Char.isWhitespace).filter (· ≠ "")

/-- Match a search pattern against the front of a text, character by
character and case-insensitively (`re.IGNORECASE`, ASCII model); the
pattern character `.` matches any text character.  This models the
pattern class actually used by the formatter, whose patterns are query
keywords with `_` replaced by `.`. -/
def patMatches : List Char → List Char → Bool
  | [], _ => true
  | _ :: _, [] => false
  | p :: ps, t :: ts => (p = '.' || p.toLower = t.toLower) && patMatches ps ts

/-- Tail of `reSearch`: try each start offset from left to right. -/
def reSearchGo (pat : List Char) : List Char → Nat → Option Nat
  | [], i => if patMatches pat [] then some i else none
  | c :: ts, i =>
    if patMatches pat (c :: ts) then some i else reSearchGo pat ts (i + 1)

/-- Model of `re.search(pat, text, re.IGNORECASE).start()` for the
pattern class of `patMatches`: the least offset at which the pattern
matches, or `none`. -/
def reSearch (pat text : String) : Option Nat :=
  reSearchGo pat.toList text.toList 0

/-- Literal case-insensitive match at the front of a text (no wildcard
characters). -/
def litMatches : List Char → List Char → Bool
  | [], _ => true
  | _ :: _, [] => false
  | p :: ps, t :: ts => (p.toLower = t.toLower) && litMatches ps ts

/-- Tail of `litFind`. -/
def litFindGo (pat : List Char) : List Char → Nat → Option Nat
  | [], i => if litMatches pat [] then some i else none
  | c :: ts, i =>
    if litMatches pat (c :: ts) then some i else litFindGo pat ts (i + 1)

/-- Least offset of a literal, case-insensitive occurrence of `pat`
inside `text`, or `none`. -/
def litFind (pat text : String) : Option Nat :=
  litFindGo pat.toList text.toList 0

end PyModel
namespace NormalizeQuery

/-- The irregular-form table of `normalize_query.py` (`IRREGULARS`),
in source order.  Python dict lookup is modelled by `List.lookup`
(keys are distinct, so first-match lookup agrees with dict lookup). -/
def IRREGULARS : List (String × String) := [
  ("was", "be"),
  ("were", "be"),
  ("been", "be"),
  ("being", "be"),
  ("am", "be"),
  ("is", "be"),
  ("are", "be"),
  ("had", "have"),
  ("has", "have"),
  ("having", "have"),
  ("did", "do"),
  ("does", "do"),
  ("doing", "do"),
  ("done", "do"),
  ("went", "go"),
  ("goes", "go"),
  ("going", "go"),
  ("gone", "go"),
  ("ran", "run"),
  ("running", "run"),
  ("runs", "run"),
  ("said", "say"),
  ("says", "say"),
  ("saying", "say"),
  ("made", "make"),
  ("makes", "make"),
  ("making", "make"),
  ("took", "take"),
  ("takes", "take"),
  ("taking", "take"),
  ("taken", "take"),
  ("came", "come"),
  ("comes", "come"),
  ("coming", "come"),
  ("saw", "see"),
  ("sees", "see"),
  ("seeing", "see"),
  ("seen", "see"),
  ("knew", "know"),
  ("knows", "know"),
  ("knowing", "know"),
  ("known", "know"),
  ("got", "get"),
  ("gets", "get"),
  ("getting", "get"),
  ("gotten", "get"),
  ("gave", "give"),
  ("gives", "give"),
  ("giving", "give"),
  ("given", "give"),
  ("found", "find"),
  ("finds", "find"),
  ("finding", "find"),
  ("thought", "think"),
  ("thinks", "think"),
  ("thinking", "think"),
  ("told", "tell"),
  ("tells", "tell"),
  ("telling", "tell"),
  ("became", "become"),
  ("becomes", "become"),
  ("becoming", "become"),
  ("left", "leave"),
  ("leaves", "leave"),
  ("leaving", "leave"),
  ("felt", "feel"),
  ("feels", "feel"),
  ("feeling", "feel"),
  ("brought", "bring"),
  ("brings", "bring"),
  ("bringing", "bring"),
  ("began", "begin"),
  ("begins", "begin"),
  ("beginning", "begin"),
  ("begun", "begin"),
  ("kept", "keep"),
  ("keeps", "keep"),
  ("keeping", "keep"),
  ("held", "hold"),
  ("holds", "hold"),
  ("holding", "hold"),
  ("wrote", "write"),
  ("writes", "write"),
  ("writing", "write"),
  ("written", "write"),
  ("stood", "stand"),
  ("stands", "stand"),
  ("standing", "stand"),
  ("heard", "hear"),
  ("hears", "hear"),
  ("hearing", "hear"),
  ("meant", "mean"),
  ("means", "mean"),
  ("meaning", "mean"),
  ("met", "meet"),
  ("meets", "meet"),
  ("meeting", "meet"),
  ("paid", "pay"),
  ("pays", "pay"),
  ("paying", "pay"),
  ("sat", "sit"),
  ("sits", "sit"),
  ("sitting", "sit"),
  ("spoke", "speak"),
  ("speaks", "speak"),
  ("speaking", "speak"),
  ("spoken", "speak"),
  ("led", "lead"),
  ("leads", "lead"),
  ("leading", "lead"),
  ("reads", "read"),
  ("reading", "read"),
  ("grew", "grow"),
  ("grows", "grow"),
  ("growing", "grow"),
  ("grown", "grow"),
  ("lost", "lose"),
  ("loses", "lose"),
  ("losing", "lose"),
  ("fell", "fall"),
  ("falls", "fall"),
  ("falling", "fall"),
  ("fallen", "fall"),
  ("sent", "send"),
  ("sends", "send"),
  ("sending", "send"),
  ("built", "build"),
  ("builds", "build"),
  ("building", "build"),
  ("understood", "understand"),
  ("understands", "understand"),
  ("understanding", "understand"),
  ("drawn", "draw"),
  ("drew", "draw"),
  ("draws", "draw"),
  ("drawing", "draw"),
  ("broke", "break"),
  ("breaks", "break"),
  ("breaking", "break"),
  ("broken", "break"),
  ("spent", "spend"),
  ("spends", "spend"),
  ("spending", "spend"),
  ("caught", "catch"),
  ("catches", "catch"),
  ("catching", "catch"),
  ("bought", "buy"),
  ("buys", "buy"),
  ("buying", "buy"),
  ("fought", "fight"),
  ("fights", "fight"),
  ("fighting", "fight"),
  ("taught", "teach"),
  ("teaches", "teach"),
  ("teaching", "teach"),
  ("sold", "sell"),
  ("sells", "sell"),
  ("selling", "sell"),
  ("sought", "seek"),
  ("seeks", "seek"),
  ("seeking", "seek"),
  ("threw", "throw"),
  ("throws", "throw"),
  ("throwing", "throw"),
  ("thrown", "throw"),
  ("showed", "show"),
  ("shows", "show"),
  ("showing", "show"),
  ("shown", "show"),
  ("chose", "choose"),
  ("chooses", "choose"),
  ("choosing", "choose"),
  ("chosen", "choose"),
  ("slept", "sleep"),
  ("sleeps", "sleep"),
  ("sleeping", "sleep"),
  ("worn", "wear"),
  ("wore", "wear"),
  ("wears", "wear"),
  ("wearing", "wear"),
  ("won", "win"),
  ("wins", "win"),
  ("winning", "win"),
  ("children", "child"),
  ("men", "man"),
  ("women", "woman")
]
/-- `normalize_word` from `normalize_query.py`.  The Snowball stemmer
is an external dependency (`PyStemmer`); the function is parameterized
by it (`stem`) and by its availability flag (`avail`), exactly as the
source consults the module-level `_stemmer` and `STEMMER_AVAILABLE`.
The `lru_cache` decorator only memoizes this pure function and has no
semantic effect. -/
def normalize_word (stem : String → String) (avail : Bool) (word : String) : String :=
  if word.length < 2 then word
  else
    let word_lower := PyModel.lower word
    match IRREGULARS.lookup word_lower with
    | some base => base
    | none => if avail then stem word_lower else word_lower

end NormalizeQuery

namespace BuildIndex

/-- The irregular-form table of `build_index.py` (`IRREGULARS`), in
source order; kept as a separate definition because claim C1 compares
the two files. -/
def IRREGULARS : List (String × String) := [
  ("was", "be"),
  ("were", "be"),
  ("been", "be"),
  ("being", "be"),
  ("am", "be"),
  ("is", "be"),
  ("are", "be"),
  ("had", "have"),
  ("has", "have"),
  ("having", "have"),
  ("did", "do"),
  ("does", "do"),
  ("doing", "do"),
  ("done", "do"),
  ("went", "go"),
  ("goes", "go"),
  ("going", "go"),
  ("gone", "go"),
  ("ran", "run"),
  ("running", "run"),
  ("runs", "run"),
  ("said", "say"),
  ("says", "say"),
  ("saying", "say"),
  ("made", "make"),
  ("makes", "make"),
  ("making", "make"),
  ("took", "take"),
  ("takes", "take"),
  ("taking", "take"),
  ("taken", "take"),
  ("came", "come"),
  ("comes", "come"),
  ("coming", "come"),
  ("saw", "see"),
  ("sees", "see"),
  ("seeing", "see"),
  ("seen", "see"),
  ("knew", "know"),
  ("knows", "know"),
  ("knowing", "know"),
  ("known", "know"),
  ("got", "get"),
  ("gets", "get"),
  ("getting", "get"),
  ("gotten", "get"),
  ("gave", "give"),
  ("gives", "give"),
  ("giving", "give"),
  ("given", "give"),
  ("found", "find"),
  ("finds", "find"),
  ("finding", "find"),
  ("thought", "think"),
  ("thinks", "think"),
  ("thinking", "think"),
  ("told", "tell"),
  ("tells", "tell"),
  ("telling", "tell"),
  ("became", "become"),
  ("becomes", "become"),
  ("becoming", "become"),
  ("left", "leave"),
  ("leaves", "leave"),
  ("leaving", "leave"),
  ("felt", "feel"),
  ("feels", "feel"),
  ("feeling", "feel"),
  ("brought", "bring"),
  ("brings", "bring"),
  ("bringing", "bring"),
  ("began", "begin"),
  ("begins", "begin"),
  ("beginning", "begin"),
  ("begun", "begin"),
  ("kept", "keep"),
  ("keeps", "keep"),
  ("keeping", "keep"),
  ("held", "hold"),
  ("holds", "hold"),
  ("holding", "hold"),
  ("wrote", "write"),
  ("writes", "write"),
  ("writing", "write"),
  ("written", "write"),
  ("stood", "stand"),
  ("stands", "stand"),
  ("standing", "stand"),
  ("heard", "hear"),
  ("hears", "hear"),
  ("hearing", "hear"),
  ("meant", "mean"),
  ("means", "mean"),
  ("meaning", "mean"),
  ("met", "meet"),
  ("meets", "meet"),
  ("meeting", "meet"),
  ("paid", "pay"),
  ("pays", "pay"),
  ("paying", "pay"),
  ("sat", "sit"),
  ("sits", "sit"),
  ("sitting", "sit"),
  ("spoke", "speak"),
  ("speaks", "speak"),
  ("speaking", "speak"),
  ("spoken", "speak"),
  ("led", "lead"),
  ("leads", "lead"),
  ("leading", "lead"),
  ("reads", "read"),
  ("reading", "read"),
  ("grew", "grow"),
  ("grows", "grow"),
  ("growing", "grow"),
  ("grown", "grow"),
  ("lost", "lose"),
  ("loses", "lose"),
  ("losing", "lose"),
  ("fell", "fall"),
  ("falls", "fall"),
  ("falling", "fall"),
  ("fallen", "fall"),
  ("sent", "send"),
  ("sends", "send"),
  ("sending", "send"),
  ("built", "build"),
  ("builds", "build"),
  ("building", "build"),
  ("understood", "understand"),
  ("understands", "understand"),
  ("understanding", "understand"),
  ("drawn", "draw"),
  ("drew", "draw"),
  ("draws", "draw"),
  ("drawing", "draw"),
  ("broke", "break"),
  ("breaks", "break"),
  ("breaking", "break"),
  ("broken", "break"),
  ("spent", "spend"),
  ("spends", "spend"),
  ("spending", "spend"),
  ("caught", "catch"),
  ("catches", "catch"),
  ("catching", "catch"),
  ("bought", "buy"),
  ("buys", "buy"),
  ("buying", "buy"),
  ("fought", "fight"),
  ("fights", "fight"),
  ("fighting", "fight"),
  ("taught", "teach"),
  ("teaches", "teach"),
  ("teaching", "teach"),
  ("sold", "sell"),
  ("sells", "sell"),
  ("selling", "sell"),
  ("sought", "seek"),
  ("seeks", "seek"),
  ("seeking", "seek"),
  ("threw", "throw"),
  ("throws", "throw"),
  ("throwing", "throw"),
  ("thrown", "throw"),
  ("showed", "show"),
  ("shows", "show"),
  ("showing", "show"),
  ("shown", "show"),
  ("chose", "choose"),
  ("chooses", "choose"),
  ("choosing", "choose"),
  ("chosen", "choose"),
  ("slept", "sleep"),
  ("sleeps", "sleep"),
  ("sleeping", "sleep"),
  ("worn", "wear"),
  ("wore", "wear"),
  ("wears", "wear"),
  ("wearing", "wear"),
  ("won", "win"),
  ("wins", "win"),
  ("winning", "win"),
  ("children", "child"),
  ("men", "man"),
  ("women", "woman")
]
/-- `normalize_word` from `build_index.py`: same shape as the
query-side function, over `BuildIndex.IRREGULARS`. -/
def normalize_word (stem : String → String) (avail : Bool) (word : String) : String :=
  if word.length < 2 then word
  else
    let word_lower := PyModel.lower word
    match IRREGULARS.lookup word_lower with
    | some base => base
    | none => if avail then stem word_lower else word_lower

/-- `normalize_text` from `build_index.py`: every ASCII-alphabetic word
occurrence (`re.findall(r'\b[a-zA-Z]+\b', text)`), normalized and
space-joined.  The source first normalizes the set of distinct words
and then maps each occurrence through the resulting dict; since
`normalize_word` is pure this is extensionally `List.map`. -/
def normalize_text (stem : String → String) (avail : Bool) (text : String) : String :=
  let words := PyModel.findallBounded Char.isAlpha 1 text
  String.intercalate " " (words.map (normalize_word stem avail))

/-- The output row `process_index` writes for a parsed line: the first
four fields, the normalized text, and the fifth field, tab-joined
(the trailing newline of the `write` call is left implicit; rows are
modelled as newline-free strings). -/
def emitRow (stem : String → String) (avail : Bool) (parts : List String) : String :=
  parts.getD 0 "" ++ "\t" ++ parts.getD 1 "" ++ "\t" ++ parts.getD 2 "" ++ "\t" ++
    parts.getD 3 "" ++ "\t" ++ normalize_text stem avail (parts.getD 3 "") ++ "\t" ++
    parts.getD 4 ""

/-- The per-line behavior of `process_index`: strip trailing newlines,
skip empty lines, split on tabs, and emit a row when at least five
fields are present. -/
def processLine (stem : String → String) (avail : Bool) (rawLine : String) : Option String :=
  if PyModel.rstrip '\n' rawLine = "" then none
  else if 5 ≤ (PyModel.splitChar '\t' (PyModel.rstrip '\n' rawLine)).length then
    some (emitRow stem avail (PyModel.splitChar '\t' (PyModel.rstrip '\n' rawLine)))
  else none

/-- `process_index` from `build_index.py`, as a function from input
lines to output rows (the progress counters printed to stderr carry no
semantic content). -/
def process_index (stem : String → String) (avail : Bool) (input : List String) : List String :=
  input.filterMap (processLine stem avail)

end BuildIndex

namespace Snowball

/-- Modelled from the spec: the English Snowball stemmer used by both
`build_index.py` and `normalize_query.py` comes from the external
`PyStemmer` package and is not part of this repository.  The spec
fixes its behavior on the words the claims exercise: "cats" stems to
"cat" (spec section 8, Index Builder round-trip) and "specifications"
to "specif" (normalize_query docstring); words the spec does not
constrain are returned unchanged (consistent with the expected value
"the cat be run", which requires stem "the" = "the"). -/
def snowball (w : String) : String :=
  if w = "cats" then "cat"
  else if w = "specifications" then "specif"
  else w

end Snowball

namespace FormatResults

/-- The per-session aggregate built by `main` in format-results.py
(lines 320-329).  The fields are the ones ranking and cutoff read
(`matches` of the source is `matchCount` here, `matches` being a
reserved word in Lean);
the message list and per-keyword count dict the source also stores are
not consulted by ranking or cutoff and are left out of the model. -/
structure SessionStat where
  session_id : String
  hits : Nat
  matchCount : Nat
  weighted_score : Nat
  timestamp : String
  project_path : String
deriving DecidableEq

/-- The simple-mode sort key `(weighted_score, hits, matches, timestamp)`,
compared lexicographically (Python tuple comparison). -/
def simpleKey (s : SessionStat) : Lex (Nat × Lex (Nat × Lex (Nat × String))) :=
  toLex (s.weighted_score, toLex (s.hits, toLex (s.matchCount, s.timestamp)))

/-- Comparator realizing `sort(key=simpleKey, reverse=True)`: a stable
sort that places `a` before `b` whenever `simpleKey b ≤ simpleKey a`
(ties keep input order, as Python `reverse=True` does). -/
def simpleGE (a b : SessionStat) : Bool := decide (simpleKey b ≤ simpleKey a)

/-- Simple-mode ranking (line 333): stable descending sort by
`simpleKey`. -/
def rankSimple (stats : List SessionStat) : List SessionStat := stats.mergeSort simpleGE

/-- The strict-mode sort key `(matches, timestamp)`. -/
def strictKey (s : SessionStat) : Lex (Nat × String) := toLex (s.matchCount, s.timestamp)

/-- Comparator for strict mode, as `simpleGE`. -/
def strictGE (a b : SessionStat) : Bool := decide (strictKey b ≤ strictKey a)

/-- Strict-mode ranking (lines 335-336): drop sessions with fewer than
5 matches, then stable descending sort by `strictKey`. -/
def rankStrict (stats : List SessionStat) : List SessionStat :=
  (stats.filter (fun s => 5 ≤ s.matchCount)).mergeSort strictGE

/-- The weighted-score loop of `main` (lines 314-318): starting from 0,
add `counts(kw) * (n - i)` for the keyword at each position `i`.  The
session's keyword-count dict is modelled as the total function
`counts` (`session_keyword_counts.get(kw, 0)`). -/
def weightedScoreGo (counts : String → Nat) (n : Nat) : List String → Nat → Nat → Nat
  | [], _, acc => acc
  | kw :: kws, i, acc => weightedScoreGo counts n kws (i + 1) (acc + counts kw * (n - i))

/-- Per-session `weighted_score` for a query keyword list. -/
def weightedScore (keywords : List String) (counts : String → Nat) : Nat :=
  weightedScoreGo counts keywords.length keywords 0 0

/-- The cutoff loop of `main` (lines 341-347): accumulate scores in
list order and stop after the first element at which the running sum
reaches 70% of `total`; the loop yields the one-based stop position,
or the list length when the threshold is never hit.  The source
compares `cumsum >= total_score * 0.7` in double precision; the model
uses the exact comparison `10 * cumsum ≥ 7 * total`, which agrees with
the double computation for every total below 2^50 (an integer cumsum
never separates the exact threshold from its rounding). -/
def cutoffLoop (total : Nat) : Nat → Nat → List Nat → Nat
  | _, idx, [] => idx
  | cumsum, idx, s :: rest =>
    if 7 * total ≤ 10 * (cumsum + s) then idx + 1
    else cutoffLoop total (cumsum + s) (idx + 1) rest

/-- The adaptive cutoff applied to the ranked session list
(lines 339-352): on a nonempty list keep the prefix of length
`max 3 (min 8 cutoff_idx)`; on an empty list the source slices with the
`sessions_limit` CLI argument instead. -/
def applyCutoff (sessions_limit : Int) (stats : List SessionStat) : List SessionStat :=
  if stats.isEmpty then PyModel.pyTake sessions_limit stats
  else
    stats.take (max 3 (min 8
      (cutoffLoop ((stats.map (fun s => s.weighted_score)).sum) 0 0
        (stats.map (fun s => s.weighted_score)))))

/-- The ranking-plus-cutoff tail of `main`: sort according to the mode
(simple or strict) and apply the adaptive cutoff. -/
def rankAndCut (simpleMode : Bool) (sessions_limit : Int) (stats : List SessionStat) :
    List SessionStat :=
  applyCutoff sessions_limit (if simpleMode then rankSimple stats else rankStrict stats)

/-- The cutoff index as claim C3 words it: the first one-based position
at which the cumulative weighted score reaches 70% of the list total
(exact rational comparison), or the list length if none. -/
def specCutoffIdx (scores : List Nat) : Nat :=
  match (List.range scores.length).find?
      (fun i => 7 * scores.sum ≤ 10 * ((scores.take (i + 1)).sum)) with
  | some i => i + 1
  | none => scores.length

/-- The keyword-search loop of `extract_snippet` (lines 218-224): try
each keyword in query order; the search pattern is the keyword with
`_` replaced by `.`, used as a regular expression (so `_` and `.`
match any single character); the first keyword that matches anywhere
yields the start offset of its leftmost match in the lowercased text. -/
def findKeywordPos (text_lower : String) : List String → Option Nat
  | [] => none
  | kw :: rest =>
    match PyModel.reSearch
        (String.mk (kw.toList.map (fun ch => if ch = '_' then '.' else ch))) text_lower with
    | some p => some p
    | none => findKeywordPos text_lower rest

/-- The normalized-word fallback of `extract_snippet` (lines 226-236):
take the first normalized keyword that occurs in the whitespace-split
normalized word list; if its index also indexes the raw word list, the
position is the character offset of that raw word (each earlier word
contributes its length plus one separating space); either way the loop
breaks after the first hit. -/
def normFallbackPos (text_lower text_normalized : String)
    (keywords_normalized : List String) : Option Nat :=
  match keywords_normalized.find?
      (fun kn => (PyModel.splitWS text_normalized).contains kn) with
  | none => none
  | some kn =>
    if (PyModel.splitWS text_normalized).indexOf kn < (PyModel.splitWS text_lower).length then
      some ((((PyModel.splitWS text_lower).take
        ((PyModel.splitWS text_normalized).indexOf kn)).map (fun w => w.length + 1)).sum)
    else none

/-- The window construction of `extract_snippet` (lines 238-248):
`before = context // 3` characters before the match position and the
remaining `context - before` after, clamped to the text (Nat
subtraction models Python `max(0, pos - before)`), with an ellipsis on
each truncated side. -/
def snippetWindow (text : String) (pos context : Nat) : String :=
  (if 0 < pos - context / 3 then "..." else "") ++
    PyModel.slice text (pos - context / 3) (min text.length (pos + (context - context / 3))) ++
    (if min text.length (pos + (context - context / 3)) < text.length then "..." else "")

/-- `extract_snippet` from format-results.py (lines 209-250). -/
def extract_snippet (text text_normalized : String)
    (keywords keywords_normalized : List String) (context : Nat) : String :=
  if text.length ≤ context then text
  else
    match findKeywordPos (PyModel.lower text) keywords with
    | some pos => snippetWindow text pos context
    | none =>
      match normFallbackPos (PyModel.lower text) text_normalized keywords_normalized with
      | some pos => snippetWindow text pos context
      | none => PyModel.slice text 0 context ++ "..."

/-- A session aggregate with weighted score 1 and fixed remaining
fields, for the concrete cutoff instances. -/
def unitStat : SessionStat := ⟨"s", 1, 1, 1, "t", "p"⟩

/-- Session aggregate with weighted score 2, for the ranking witness. -/
def statA : SessionStat := ⟨"a", 0, 0, 2, "", ""⟩

/-- Session aggregate with weighted score 1, for the ranking witness. -/
def statB : SessionStat := ⟨"b", 0, 0, 1, "", ""⟩

end FormatResults

namespace Discovery

/-- The PMI term of `score_candidates` in build_custom_keywords.py
(lines 328-335) for one (seed, word) pair: `count` is the word's
co-occurrence count with the seed, `seed_total` the sum of that seed's
co-occurrence counts, `global_freq` the value read from
`global_counts.get(word, 1)`, and `total_corpus` the corpus word
total.  `P(word|seed) = count / max(seed_total, 1)` and
`P(word) = global_freq / max(total_corpus, 1)` are computed by the
source in double precision and modelled as exact rationals;
`math.log2` is modelled as `Real.logb 2`. -/
noncomputable def pmiTerm (count seed_total global_freq total_corpus : Nat) : Real :=
  if 0 < (global_freq : ℚ) / (max total_corpus 1 : Nat) ∧
      (global_freq : ℚ) / (max total_corpus 1 : Nat) <
        (count : ℚ) / (max seed_total 1 : Nat) then
    Real.logb 2
      ((((count : ℚ) / (max seed_total 1 : Nat)) /
        ((global_freq : ℚ) / (max total_corpus 1 : Nat)) : ℚ) : Real)
  else 0

end Discovery

namespace HintKeywords

/-- Minimum English word length (`MIN_ENGLISH_WORD_LENGTH`). -/
def MIN_ENGLISH_WORD_LENGTH : Nat := 3

/-- The English stopword set of hint_keywords.py, in source order
(the Python set literal contains a few repeated words; list membership
has the same semantics). -/
def STOPWORDS_EN : List String := [
  "the",
  "a",
  "an",
  "is",
  "are",
  "was",
  "were",
  "be",
  "been",
  "being",
  "to",
  "for",
  "of",
  "in",
  "on",
  "at",
  "by",
  "with",
  "from",
  "as",
  "and",
  "or",
  "but",
  "if",
  "then",
  "else",
  "when",
  "where",
  "why",
  "how",
  "what",
  "which",
  "who",
  "whom",
  "whose",
  "i",
  "me",
  "my",
  "mine",
  "we",
  "us",
  "our",
  "ours",
  "you",
  "your",
  "yours",
  "he",
  "him",
  "his",
  "she",
  "her",
  "hers",
  "it",
  "its",
  "they",
  "them",
  "their",
  "theirs",
  "this",
  "that",
  "these",
  "those",
  "do",
  "does",
  "did",
  "done",
  "doing",
  "have",
  "has",
  "had",
  "having",
  "get",
  "got",
  "getting",
  "gets",
  "make",
  "made",
  "making",
  "makes",
  "go",
  "went",
  "going",
  "goes",
  "gone",
  "take",
  "took",
  "taking",
  "takes",
  "taken",
  "come",
  "came",
  "coming",
  "comes",
  "see",
  "saw",
  "seeing",
  "sees",
  "seen",
  "know",
  "knew",
  "knowing",
  "knows",
  "known",
  "think",
  "thought",
  "thinking",
  "thinks",
  "want",
  "wanted",
  "wanting",
  "wants",
  "need",
  "needed",
  "needing",
  "needs",
  "try",
  "tried",
  "trying",
  "tries",
  "use",
  "used",
  "using",
  "uses",
  "find",
  "found",
  "finding",
  "finds",
  "give",
  "gave",
  "giving",
  "gives",
  "given",
  "tell",
  "told",
  "telling",
  "tells",
  "say",
  "said",
  "saying",
  "says",
  "let",
  "lets",
  "letting",
  "put",
  "puts",
  "putting",
  "keep",
  "kept",
  "keeping",
  "keeps",
  "begin",
  "began",
  "beginning",
  "begins",
  "begun",
  "seem",
  "seemed",
  "seeming",
  "seems",
  "leave",
  "left",
  "leaving",
  "leaves",
  "call",
  "called",
  "calling",
  "calls",
  "ask",
  "asked",
  "asking",
  "asks",
  "work",
  "worked",
  "working",
  "works",
  "look",
  "looked",
  "looking",
  "looks",
  "fix",
  "fixed",
  "fixing",
  "fixes",
  "add",
  "added",
  "adding",
  "adds",
  "show",
  "showed",
  "showing",
  "shows",
  "shown",
  "check",
  "checked",
  "checking",
  "checks",
  "debug",
  "debugged",
  "debugging",
  "debugs",
  "run",
  "ran",
  "running",
  "runs",
  "start",
  "started",
  "starting",
  "starts",
  "stop",
  "stopped",
  "stopping",
  "stops",
  "open",
  "opened",
  "opening",
  "opens",
  "close",
  "closed",
  "closing",
  "closes",
  "read",
  "reading",
  "reads",
  "write",
  "wrote",
  "writing",
  "writes",
  "written",
  "create",
  "created",
  "creating",
  "creates",
  "delete",
  "deleted",
  "deleting",
  "deletes",
  "update",
  "updated",
  "updating",
  "updates",
  "change",
  "changed",
  "changing",
  "changes",
  "set",
  "setting",
  "sets",
  "move",
  "moved",
  "moving",
  "moves",
  "copy",
  "copied",
  "copying",
  "copies",
  "send",
  "sent",
  "sending",
  "sends",
  "remember",
  "remembered",
  "remembering",
  "remembers",
  "continue",
  "continued",
  "continuing",
  "continues",
  "can",
  "could",
  "will",
  "would",
  "shall",
  "should",
  "may",
  "might",
  "must",
  "just",
  "also",
  "only",
  "still",
  "even",
  "again",
  "now",
  "then",
  "here",
  "there",
  "very",
  "really",
  "well",
  "back",
  "much",
  "more",
  "most",
  "less",
  "least",
  "off",
  "out",
  "up",
  "down",
  "away",
  "please",
  "thanks",
  "thank",
  "help",
  "okay",
  "ok",
  "yes",
  "no",
  "maybe",
  "perhaps",
  "actually",
  "basically",
  "probably",
  "about",
  "after",
  "before",
  "between",
  "through",
  "during",
  "into",
  "over",
  "under",
  "above",
  "below",
  "some",
  "any",
  "all",
  "each",
  "every",
  "both",
  "few",
  "many",
  "other",
  "another",
  "such",
  "same",
  "different",
  "first",
  "last",
  "next",
  "new",
  "old",
  "good",
  "bad",
  "right",
  "wrong",
  "way",
  "thing",
  "things",
  "something",
  "anything",
  "nothing",
  "everything",
  "am",
  "an",
  "re",
  "oh",
  "so",
  "no",
  "hi",
  "ah"
]
/-- The Chinese stopword set of hint_keywords.py, in source order. -/
def STOPWORDS_ZH : List String := [
  "的",
  "地",
  "得",
  "了",
  "着",
  "过",
  "吗",
  "呢",
  "啊",
  "吧",
  "呀",
  "哦",
  "嘛",
  "啦",
  "我",
  "你",
  "您",
  "他",
  "她",
  "它",
  "我们",
  "你们",
  "他们",
  "她们",
  "它们",
  "这",
  "那",
  "这个",
  "那个",
  "这些",
  "那些",
  "这里",
  "那里",
  "和",
  "与",
  "或",
  "但",
  "但是",
  "因为",
  "所以",
  "如果",
  "虽然",
  "在",
  "从",
  "到",
  "对",
  "向",
  "把",
  "被",
  "给",
  "跟",
  "比",
  "里",
  "里面",
  "外",
  "外面",
  "上",
  "上面",
  "下",
  "下面",
  "前",
  "前面",
  "后",
  "后面",
  "是",
  "有",
  "没有",
  "没",
  "不",
  "不是",
  "会",
  "能",
  "可以",
  "要",
  "想",
  "应该",
  "做",
  "去",
  "来",
  "说",
  "看",
  "知道",
  "觉得",
  "认为",
  "希望",
  "看看",
  "想要",
  "有个",
  "是不是",
  "能不能",
  "可不可以",
  "不能",
  "帮",
  "帮我",
  "帮忙",
  "请",
  "请问",
  "试试",
  "想想",
  "看下",
  "看一下",
  "弄",
  "搞",
  "整",
  "无法",
  "不对",
  "不行",
  "不好",
  "好像",
  "可能",
  "应该",
  "执行",
  "添加",
  "讨论",
  "使用",
  "之前",
  "之后",
  "以前",
  "以后",
  "上次",
  "下次",
  "刚才",
  "现在",
  "马上",
  "今天",
  "明天",
  "昨天",
  "时候",
  "什么",
  "怎么",
  "怎样",
  "为什么",
  "哪",
  "哪个",
  "哪些",
  "哪里",
  "谁",
  "多少",
  "很",
  "太",
  "真",
  "最",
  "更",
  "非常",
  "特别",
  "比较",
  "稍微",
  "就",
  "才",
  "都",
  "也",
  "还",
  "又",
  "再",
  "已经",
  "正在",
  "一直",
  "还是",
  "先",
  "不管",
  "不要",
  "个",
  "些",
  "点",
  "下",
  "次",
  "种",
  "样",
  "一",
  "一个",
  "一下",
  "一些",
  "一点",
  "好",
  "行",
  "可以",
  "好的",
  "那",
  "然后",
  "接下来"
]
/-- A CJK character in the ranges hint_keywords.py uses
(`[一-鿿぀-ゟ゠-ヿ]`). -/
def isCJK (c : Char) : Bool :=
  (0x4e00 ≤ c.toNat && c.toNat ≤ 0x9fff) ||
    (0x3040 ≤ c.toNat && c.toNat ≤ 0x309f) ||
    (0x30a0 ≤ c.toNat && c.toNat ≤ 0x30ff)

/-- A Han character (`[一-鿿]`), as in the bigram fallback. -/
def isHan (c : Char) : Bool := 0x4e00 ≤ c.toNat && c.toNat ≤ 0x9fff

/-- `has_cjk` from hint_keywords.py. -/
def has_cjk (s : String) : Bool := s.toList.any isCJK

/-- The segment list `re.split(r'([CJK]+)', text)` produces: the
alternating non-CJK pieces and captured CJK runs, in text order.  The
empty boundary pieces the regex split inserts are dropped by the
caller's `not segment` check, which this model folds in by returning
the maximal runs directly. -/
def segments (text : String) : List String :=
  (PyModel.runs isCJK text.toList).map (fun r => String.mk r.2)

/-- `extract_english_keywords`: lowercased alphabetic words of length
at least 3 that are not stopwords, and then the standalone digit
groups of length at least 3 — the source appends all numbers after all
words of the segment. -/
def extract_english_keywords (text : String) : List String :=
  (PyModel.findallBounded Char.isAlpha MIN_ENGLISH_WORD_LENGTH (PyModel.lower text)).filter
      (fun w => !(STOPWORDS_EN.contains w)) ++
    PyModel.findallBounded Char.isDigit 3 text

/-- The overlapping character bigrams `clean[i:i+2]` of the fallback
path. -/
def bigramsGo : List Char → List String
  | a :: b :: rest => String.mk [a, b] :: bigramsGo (b :: rest)
  | _ => []

/-- Bigrams of a string. -/
def bigrams (s : String) : List String := bigramsGo s.toList

/-- `extract_chinese_keywords`, parameterized by the optional jieba
segmenter (an external dependency, absent from the repository): with a
segmenter, its segments of length at least 2 that are not stopwords;
without one, the overlapping bigrams of the Han-only characters that
are not stopwords. -/
def extract_chinese_keywords (jieba : Option (String → List String)) (text : String) :
    List String :=
  match jieba with
  | some lcut => (lcut text).filter (fun w => 2 ≤ w.length && !(STOPWORDS_ZH.contains w))
  | none =>
    (bigrams (String.mk (text.toList.filter isHan))).filter
      (fun w => !(STOPWORDS_ZH.contains w))

/-- The keyword stream of `extract_keywords` before deduplication: the
per-segment keyword lists concatenated in segment order, skipping
whitespace-only segments (Python `not segment or not segment.strip()`;
whitespace is modelled by `Char.isWhitespace`). -/
def keywordStream (jieba : Option (String → List String)) (text : String) : List String :=
  ((segments text).filter (fun seg => !(seg.toList.all Char.isWhitespace))).flatMap
    (fun seg =>
      if has_cjk seg then extract_chinese_keywords jieba seg
      else extract_english_keywords seg)

/-- The deduplication loop of `extract_keywords` (lines 270-275): walk
the stream keeping a `seen` set (modelled as a list) and keep each
keyword the first time it is met. -/
def dedupSeen (seen : List String) : List String → List String
  | [] => []
  | k :: ks =>
    if seen.contains k then dedupSeen seen ks else k :: dedupSeen (k :: seen) ks

/-- `extract_keywords` from hint_keywords.py, with the result cap
(`max_keywords`, default 6 at the call sites) explicit: empty or
whitespace-only input yields `[]`; otherwise the deduplicated keyword
stream truncated to the cap. -/
def extract_keywords (jieba : Option (String → List String)) (text : String) (cap : Nat) :
    List String :=
  if text.toList.all Char.isWhitespace then []
  else (dedupSeen [] (keywordStream jieba text)).take cap

/-- Deduplication as claim C7 words it, defined independently of the
`seen`-set loop: keep the head and deduplicate the tail with the head
removed. -/
def dedupFirst : List String → List String
  | [] => []
  | x :: xs => x :: dedupFirst (xs.filter (fun y => y ≠ x))
termination_by l => l.length
decreasing_by
  simp only [List.length_cons]
  exact Nat.lt_succ_of_le (List.length_filter_le _ _)

end HintKeywords

/-- Folding the empty-line check of `processLine` into the field-count
check: an empty line splits to `[""]`, which has fewer than 5 fields. -/
theorem processLine_eq (stem : String → String) (avail : Bool) (l : String) :
    BuildIndex.processLine stem avail l =
      if 5 ≤ (PyModel.splitChar '\t' (PyModel.rstrip '\n' l)).length then
        some (BuildIndex.emitRow stem avail (PyModel.splitChar '\t' (PyModel.rstrip '\n' l)))
      else none := by
  rw [BuildIndex.processLine]
  by_cases h : PyModel.rstrip '\n' l = ""
  · rw [if_pos h, h, if_neg (by decide)]
  · rw [if_neg h]

/-- C1: the word-normalization function used at index-build time
(`build_index.normalize_word`) and the one used at query time
(`normalize_query.normalize_word`) are extensionally equal: for every
stemmer, availability flag and input token they return the same
string.  (The two files carry textually identical irregular tables and
identical function bodies.) -/
theorem c1_normalize_word_equiv (stem : String → String) (avail : Bool) (t : String) :
    BuildIndex.normalize_word stem avail t = NormalizeQuery.normalize_word stem avail t := rfl

/-- C2: on the single well-formed record
`"s1\t2024-01-01\tuser\tThe cats were running\t/proj"` the index
builder emits exactly one row, that row has exactly 6 tab-separated
fields, and its normalized_text field (field index 4, just before
project_path) is `"the cat be run"`. -/
theorem c2_round_trip :
    BuildIndex.process_index Snowball.snowball true
        ["s1\t2024-01-01\tuser\tThe cats were running\t/proj"] =
      ["s1\t2024-01-01\tuser\tThe cats were running\tthe cat be run\t/proj"] ∧
    (BuildIndex.process_index Snowball.snowball true
        ["s1\t2024-01-01\tuser\tThe cats were running\t/proj"]).length = 1 ∧
    (PyModel.splitChar '\t'
        ((BuildIndex.process_index Snowball.snowball true
          ["s1\t2024-01-01\tuser\tThe cats were running\t/proj"]).getD 0 "")).length = 6 ∧
    (PyModel.splitChar '\t'
        ((BuildIndex.process_index Snowball.snowball true
          ["s1\t2024-01-01\tuser\tThe cats were running\t/proj"]).getD 0 "")).getD 4 "" =
      "the cat be run" := by
  refine ⟨by decide, by decide, by decide, by decide⟩

/-- C5 counterexample: the claim says tokens of length < 2 come back
lowercased (`normalize_word t = lower t`), but the source returns them
without lowercasing: on the length-1 token "A" the function returns
"A" while its lowercasing is "a". -/
theorem c5_counterexample :
    ("A" : String).length < 2 ∧
    NormalizeQuery.normalize_word id true "A" ≠ PyModel.lower "A" := by
  exact ⟨by decide, by decide⟩

/-- C5 (amended): for every input token of length < 2 the normalizer
returns the token unchanged (it is not lowercased). -/
theorem c5_short_token_unchanged (stem : String → String) (avail : Bool) (t : String)
    (h : t.length < 2) : NormalizeQuery.normalize_word stem avail t = t := by
  unfold NormalizeQuery.normalize_word
  rw [if_pos h]

/-- C5 witness: the amended theorem applied at the concrete token "A". -/
theorem c5_witness : NormalizeQuery.normalize_word id true "A" = "A" :=
  c5_short_token_unchanged id true "A" (by decide)

/-- C6 counterexample: the claim says a line whose field count differs
from 5 is never emitted, but the source emits every line with at least
5 fields: this 6-field line produces an output row (built from its
first five fields). -/
theorem c6_counterexample :
    (PyModel.splitChar '\t' "a\tb\tc\td\te\tf").length ≠ 5 ∧
    BuildIndex.process_index Snowball.snowball true ["a\tb\tc\td\te\tf"] =
      ["a\tb\tc\td\td\te"] := by
  exact ⟨by decide, by decide⟩

/-- C6 (amended): a line is emitted exactly when, after stripping
trailing newlines, it has at least 5 tab-separated fields; lines with
fewer fields (including empty lines) are skipped and processing
continues with the remaining lines.  Fields beyond the fifth are
dropped from the output. -/
theorem c6_emit_iff_five_fields (stem : String → String) (avail : Bool) (lines : List String) :
    BuildIndex.process_index stem avail lines =
      (((lines.map (PyModel.rstrip '\n')).filter
          (fun l => 5 ≤ (PyModel.splitChar '\t' l).length)).map
        (fun l => BuildIndex.emitRow stem avail (PyModel.splitChar '\t' l))) := by
  induction lines with
  | nil => rfl
  | cons l ls ih =>
    simp only [BuildIndex.process_index, List.filterMap_cons, List.map_cons,
      List.filter_cons, processLine_eq] at ih ⊢
    by_cases h : 5 ≤ (PyModel.splitChar '\t' (PyModel.rstrip '\n' l)).length
    · simp only [if_pos h, decide_eq_true h, ih]
      rfl
    · simp only [if_neg h, decide_eq_false h, ih]
      rfl

/-- The cutoff loop computes the first one-based position at which the
running sum (started at `c`) reaches the 70% threshold, offset by the
starting index `idx`; the list length when the threshold is never
reached. -/
theorem cutoffLoop_eq (total : Nat) (l : List Nat) (c idx : Nat) :
    FormatResults.cutoffLoop total c idx l =
      (match (List.range l.length).find?
          (fun i => decide (7 * total ≤ 10 * (c + (l.take (i + 1)).sum))) with
      | some i => idx + i + 1
      | none => idx + l.length) := by
  induction l generalizing c idx with
  | nil => simp [FormatResults.cutoffLoop]
  | cons s rest ih =>
    rw [List.length_cons, List.range_succ_eq_map, List.find?_cons]
    by_cases h : 7 * total ≤ 10 * (c + s)
    · have hp : (fun i => decide (7 * total ≤ 10 * (c + ((s :: rest).take (i + 1)).sum))) 0 =
          true := by
        simp [h]
      simp only [hp]
      simp [FormatResults.cutoffLoop, h]
    · have hp : (fun i => decide (7 * total ≤ 10 * (c + ((s :: rest).take (i + 1)).sum))) 0 =
          false := by
        simp [h]
      simp only [hp]
      have hcomp : ((fun i => decide (7 * total ≤ 10 * (c + ((s :: rest).take (i + 1)).sum))) ∘
            Nat.succ) =
          fun i => decide (7 * total ≤ 10 * ((c + s) + (rest.take (i + 1)).sum)) := by
        funext i
        simp only [Function.comp_apply, List.take_succ_cons, List.sum_cons,
          Nat.succ_eq_add_one, decide_eq_decide]
        omega
      rw [List.find?_map, hcomp]
      have hloop : FormatResults.cutoffLoop total c idx (s :: rest) =
          FormatResults.cutoffLoop total (c + s) (idx + 1) rest := by
        simp [FormatResults.cutoffLoop, h]
      rw [hloop, ih]
      rcases hfind : (List.range rest.length).find?
          (fun i => decide (7 * total ≤ 10 * ((c + s) + (rest.take (i + 1)).sum))) with _ | i
      · show idx + 1 + rest.length = idx + (rest.length + 1)
        omega
      · show idx + 1 + i + 1 = idx + (i + 1) + 1
        omega

/-- On a nonempty ranked list the adaptive cutoff keeps exactly the
prefix of length `max 3 (min 8 j)` where `j` is the first one-based
position at which the cumulative weighted score reaches 70% of the
total (list length if never). -/
theorem applyCutoff_eq (limit : Int) (stats : List FormatResults.SessionStat)
    (h : stats ≠ []) :
    FormatResults.applyCutoff limit stats =
      stats.take (max 3 (min 8
        (FormatResults.specCutoffIdx (stats.map (fun s => s.weighted_score))))) := by
  rw [FormatResults.applyCutoff, if_neg (by simpa [List.isEmpty_iff] using h)]
  congr 3
  rw [cutoffLoop_eq, FormatResults.specCutoffIdx]
  rcases hfind : (List.range (stats.map (fun s => s.weighted_score)).length).find?
      (fun i => decide (7 * (stats.map (fun s => s.weighted_score)).sum ≤
        10 * (((stats.map (fun s => s.weighted_score)).take (i + 1)).sum))) with _ | i <;>
    simp [hfind]

/-- C3: the adaptive cutoff keeps ranked sessions in order until the
cumulative weighted-score fraction of the total first reaches 0.70 and
clamps the kept count into [3, 8] (first conjunct, against the
independently defined `specCutoffIdx`); for 10 sessions of weighted
score 1 exactly 7 are kept (second conjunct); and when fewer than 3
sessions exist all of them are returned (third conjunct, any
sessions-limit argument). -/
theorem c3_adaptive_cutoff :
    (∀ (limit : Int) (stats : List FormatResults.SessionStat), stats ≠ [] →
        FormatResults.applyCutoff limit stats =
          stats.take (max 3 (min 8
            (FormatResults.specCutoffIdx (stats.map (fun s => s.weighted_score)))))) ∧
    FormatResults.applyCutoff 5 (List.replicate 10 FormatResults.unitStat) =
      List.replicate 7 FormatResults.unitStat ∧
    (∀ (limit : Int) (stats : List FormatResults.SessionStat), stats.length < 3 →
        FormatResults.applyCutoff limit stats = stats) := by
  refine ⟨applyCutoff_eq, by decide, ?_⟩
  intro limit stats hlen
  by_cases h : stats = []
  · subst h
    simp [FormatResults.applyCutoff, PyModel.pyTake]
  · rw [FormatResults.applyCutoff, if_neg (by simpa [List.isEmpty_iff] using h)]
    exact List.take_of_length_le (by omega)

/-- C3 witness: the third conjunct applied to a concrete two-element
list (and the clamp lower bound 3 exceeding its length). -/
theorem c3_witness :
    FormatResults.applyCutoff 0 [FormatResults.statA, FormatResults.statB] =
      [FormatResults.statA, FormatResults.statB] :=
  c3_adaptive_cutoff.2.2 0 [FormatResults.statA, FormatResults.statB] (by decide)

/-- C10: the kept session list is independent of the sessions-limit
CLI argument: for any mode, any two limit values and any aggregated
session list, ranking plus cutoff produce the same result, because the
nonempty branch of the cutoff uses only the fixed [3, 8] bounds and
the `sessions_limit` slice is reachable only with an empty session
list, which it maps to the empty list for every limit. -/
theorem c10_limit_independent (simpleMode : Bool) (l1 l2 : Int)
    (stats : List FormatResults.SessionStat) :
    FormatResults.rankAndCut simpleMode l1 stats =
      FormatResults.rankAndCut simpleMode l2 stats := by
  rw [FormatResults.rankAndCut, FormatResults.rankAndCut]
  generalize (if simpleMode then FormatResults.rankSimple stats
    else FormatResults.rankStrict stats) = ranked
  rw [FormatResults.applyCutoff, FormatResults.applyCutoff]
  by_cases h : ranked.isEmpty
  · rw [if_pos h, if_pos h]
    rw [List.isEmpty_iff] at h
    subst h
    simp [PyModel.pyTake]
  · rw [if_neg h, if_neg h]

/-- The weighted-score loop equals the positional sum, for any starting
index and accumulator. -/
theorem weightedScoreGo_eq (counts : String → Nat) (n : Nat) (kws : List String)
    (i acc : Nat) :
    FormatResults.weightedScoreGo counts n kws i acc =
      acc + ∑ t ∈ Finset.range kws.length, counts (kws.getD t "") * (n - (i + t)) := by
  induction kws generalizing i acc with
  | nil => simp [FormatResults.weightedScoreGo]
  | cons kw rest ih =>
    rw [FormatResults.weightedScoreGo, ih, List.length_cons, Finset.sum_range_succ']
    simp only [List.getD_cons_succ, List.getD_cons_zero, Nat.add_zero]
    have hsum : ∑ t ∈ Finset.range rest.length, counts (rest.getD t "") * (n - (i + 1 + t)) =
        ∑ t ∈ Finset.range rest.length, counts (rest.getD t "") * (n - (i + (t + 1))) := by
      refine Finset.sum_congr rfl (fun t _ => ?_)
      congr 1
      omega
    rw [hsum]
    omega

/-- Per-session weighted score as the sum over keyword positions of
count times positional weight. -/
theorem weightedScore_eq (kws : List String) (counts : String → Nat) :
    FormatResults.weightedScore kws counts =
      ∑ t ∈ Finset.range kws.length, counts (kws.getD t "") * (kws.length - t) := by
  rw [FormatResults.weightedScore, weightedScoreGo_eq]
  simp

/-- In a duplicate-free keyword list, entries at distinct positions are
distinct strings. -/
theorem getD_ne_of_nodup (kws : List String) (hnd : kws.Nodup) (t u : Nat)
    (ht : t < kws.length) (hu : u < kws.length) (hne : t ≠ u) :
    kws.getD t "" ≠ kws.getD u "" := by
  rw [List.getD_eq_getElem _ _ ht, List.getD_eq_getElem _ _ hu]
  intro heq
  exact hne (List.Nodup.getElem_inj_iff hnd |>.mp heq)

/-- The weighted-score comparison of the claim-C4 scenario: sessions A
and B have identical per-keyword counts except that A matched the
keyword at position `i` and B the one at position `j`, `i < j`, with
the same count `c`. -/
theorem weightedScore_scenario (kws : List String) (i j c : Nat) (cA cB : String → Nat)
    (hij : i < j) (hj : j < kws.length) (hnd : kws.Nodup)
    (hAi : cA (kws.getD i "") = c) (hAj : cA (kws.getD j "") = 0)
    (hBi : cB (kws.getD i "") = 0) (hBj : cB (kws.getD j "") = c)
    (hoth : ∀ k, k ≠ kws.getD i "" → k ≠ kws.getD j "" → cA k = cB k) :
    FormatResults.weightedScore kws cB ≤ FormatResults.weightedScore kws cA ∧
      (1 ≤ c →
        FormatResults.weightedScore kws cB < FormatResults.weightedScore kws cA) := by
  have hi : i < kws.length := lt_trans hij hj
  have hmemi : i ∈ Finset.range kws.length := Finset.mem_range.mpr hi
  have hmemj : j ∈ (Finset.range kws.length).erase i :=
    Finset.mem_erase.mpr ⟨Ne.symm (Nat.ne_of_lt hij), Finset.mem_range.mpr hj⟩
  have hsplit : ∀ cnt : String → Nat,
      ∑ t ∈ Finset.range kws.length, cnt (kws.getD t "") * (kws.length - t) =
        (∑ t ∈ ((Finset.range kws.length).erase i).erase j,
            cnt (kws.getD t "") * (kws.length - t)) +
          cnt (kws.getD j "") * (kws.length - j) +
          cnt (kws.getD i "") * (kws.length - i) := by
    intro cnt
    rw [← Finset.sum_erase_add _ _ hmemi, ← Finset.sum_erase_add _ _ hmemj]
  have hcore : ∑ t ∈ ((Finset.range kws.length).erase i).erase j,
        cA (kws.getD t "") * (kws.length - t) =
      ∑ t ∈ ((Finset.range kws.length).erase i).erase j,
        cB (kws.getD t "") * (kws.length - t) := by
    refine Finset.sum_congr rfl (fun t ht => ?_)
    rcases Finset.mem_erase.mp ht with ⟨htj, ht'⟩
    rcases Finset.mem_erase.mp ht' with ⟨hti, htr⟩
    have htlen := Finset.mem_range.mp htr
    rw [hoth (kws.getD t "")
      (getD_ne_of_nodup kws hnd t i htlen hi hti)
      (getD_ne_of_nodup kws hnd t j htlen hj htj)]
  have hub : kws.length - j ≤ kws.length - i := Nat.sub_le_sub_left (le_of_lt hij) _
  constructor
  · rw [weightedScore_eq, weightedScore_eq, hsplit cA, hsplit cB, hcore, hAi, hAj, hBi, hBj]
    have := Nat.mul_le_mul_left c hub
    omega
  · intro hc
    rw [weightedScore_eq, weightedScore_eq, hsplit cA, hsplit cB, hcore, hAi, hAj, hBi, hBj]
    have hlt : kws.length - j < kws.length - i := by omega
    have := Nat.mul_lt_mul_of_pos_left hlt (show 0 < c by omega)
    omega

/-- A session with a strictly larger weighted score is placed strictly
earlier by the simple-mode ranking (Python stable descending sort on
the key tuple led by weighted_score). -/
theorem rankSimple_order (l : List FormatResults.SessionStat)
    (A B : FormatResults.SessionStat) (hA : A ∈ l) (hB : B ∈ l)
    (hlt : B.weighted_score < A.weighted_score) :
    (FormatResults.rankSimple l).indexOf A < (FormatResults.rankSimple l).indexOf B := by
  have htrans : ∀ a b c, FormatResults.simpleGE a b = true →
      FormatResults.simpleGE b c = true → FormatResults.simpleGE a c = true := by
    intro a b c hab hbc
    simp only [FormatResults.simpleGE, decide_eq_true_eq] at *
    exact le_trans hbc hab
  have htotal : ∀ a b,
      (FormatResults.simpleGE a b || FormatResults.simpleGE b a) = true := by
    intro a b
    simp only [FormatResults.simpleGE, Bool.or_eq_true, decide_eq_true_eq]
    exact le_total _ _
  have hperm := List.mergeSort_perm l FormatResults.simpleGE
  have hsorted := List.sorted_mergeSort htrans htotal l
  have hwle : ∀ X Y : FormatResults.SessionStat, FormatResults.simpleGE X Y = true →
      Y.weighted_score ≤ X.weighted_score := by
    intro X Y hXY
    simp only [FormatResults.simpleGE, decide_eq_true_eq, FormatResults.simpleKey,
      Prod.Lex.le_iff] at hXY
    omega
  rw [FormatResults.rankSimple]
  have hA' : A ∈ l.mergeSort FormatResults.simpleGE := hperm.mem_iff.mpr hA
  have hB' : B ∈ l.mergeSort FormatResults.simpleGE := hperm.mem_iff.mpr hB
  have hAlen : (l.mergeSort FormatResults.simpleGE).indexOf A <
      (l.mergeSort FormatResults.simpleGE).length := List.indexOf_lt_length.mpr hA'
  have hBlen : (l.mergeSort FormatResults.simpleGE).indexOf B <
      (l.mergeSort FormatResults.simpleGE).length := List.indexOf_lt_length.mpr hB'
  by_contra hcon
  push_neg at hcon
  rcases Nat.lt_or_ge ((l.mergeSort FormatResults.simpleGE).indexOf B)
      ((l.mergeSort FormatResults.simpleGE).indexOf A) with hlt2 | hge
  · have hpair := (List.pairwise_iff_get.mp hsorted)
      ⟨_, hBlen⟩ ⟨_, hAlen⟩ hlt2
    simp only [List.get_eq_getElem, List.getElem_indexOf hAlen,
      List.getElem_indexOf hBlen] at hpair
    exact absurd (hwle B A hpair) (by omega)
  · have heq : (l.mergeSort FormatResults.simpleGE).indexOf A =
        (l.mergeSort FormatResults.simpleGE).indexOf B := by omega
    have hgA := List.getElem_indexOf hAlen
    have hgB := List.getElem_indexOf hBlen
    have hget : (l.mergeSort FormatResults.simpleGE).get ⟨_, hAlen⟩ =
        (l.mergeSort FormatResults.simpleGE).get ⟨_, hBlen⟩ :=
      congrArg _ (Fin.ext heq)
    have hAB : A = B := by
      simpa [List.get_eq_getElem, hgA, hgB] using hget
    rw [hAB] at hlt
    omega

/-- C4: per-session weighted_score equals the positional sum
Σ count(k) · (n − position(k)) over the query keyword list (first
conjunct); in the scenario of identical counts except A matching an
earlier-listed keyword than B, A's weighted score is at least B's, and
strictly greater when the shared count is positive (second conjunct);
and a session with strictly greater weighted score is ranked strictly
before the other in simple mode (third conjunct). -/
theorem c4_weighted_ranking :
    (∀ (kws : List String) (counts : String → Nat),
        FormatResults.weightedScore kws counts =
          ∑ t ∈ Finset.range kws.length, counts (kws.getD t "") * (kws.length - t)) ∧
    (∀ (kws : List String) (i j c : Nat) (cA cB : String → Nat),
        i < j → j < kws.length → kws.Nodup →
        cA (kws.getD i "") = c → cA (kws.getD j "") = 0 →
        cB (kws.getD i "") = 0 → cB (kws.getD j "") = c →
        (∀ k, k ≠ kws.getD i "" → k ≠ kws.getD j "" → cA k = cB k) →
        FormatResults.weightedScore kws cB ≤ FormatResults.weightedScore kws cA ∧
          (1 ≤ c →
            FormatResults.weightedScore kws cB < FormatResults.weightedScore kws cA)) ∧
    (∀ (l : List FormatResults.SessionStat) (A B : FormatResults.SessionStat),
        A ∈ l → B ∈ l → B.weighted_score < A.weighted_score →
        (FormatResults.rankSimple l).indexOf A < (FormatResults.rankSimple l).indexOf B) := by
  exact ⟨weightedScore_eq,
    fun kws i j c cA cB hij hj hnd hAi hAj hBi hBj hoth =>
      weightedScore_scenario kws i j c cA cB hij hj hnd hAi hAj hBi hBj hoth,
    rankSimple_order⟩

/-- C4 witness: the ranking conjunct applied to the concrete
two-session list with weighted scores 2 and 1. -/
theorem c4_witness :
    (FormatResults.rankSimple [FormatResults.statB, FormatResults.statA]).indexOf
        FormatResults.statA <
      (FormatResults.rankSimple [FormatResults.statB, FormatResults.statA]).indexOf
        FormatResults.statB :=
  c4_weighted_ranking.2.2 [FormatResults.statB, FormatResults.statA]
    FormatResults.statA FormatResults.statB (by decide) (by decide) (by decide)

/-- C9 counterexample: the claim says the snippet is built around the
first literal occurrence of any raw keyword, but the source scans
keywords in list order: with keywords ["bb", "aa"] and a text whose
earliest keyword occurrence is "aa" at offset 0 ("bb" only occurs at
offset 12), the source returns the window around offset 12, not the
claimed window around offset 0. -/
theorem c9_counterexample :
    FormatResults.extract_snippet "aa0123456789bb0123456789" "" ["bb", "aa"] [] 6 =
      "...89bb01..." ∧
    PyModel.litFind "aa" (PyModel.lower "aa0123456789bb0123456789") = some 0 ∧
    PyModel.litFind "bb" (PyModel.lower "aa0123456789bb0123456789") = some 12 ∧
    FormatResults.snippetWindow "aa0123456789bb0123456789" 0 6 = "aa01..." ∧
    ("...89bb01..." : String) ≠ "aa01..." := by
  refine ⟨by decide, by decide, by decide, by decide, by decide⟩

/-- C9 (amended): for a message text longer than the context budget
the extractor scans the raw keywords in query order,
case-insensitively and with `_` (and `.`) in a keyword matching any
single character; if some keyword matches, and `pos` is the leftmost
match offset of the first matching keyword, the result is the window
of `context` characters with `context / 3` characters before `pos` and
the remaining `context - context / 3` after it, clamped to the text,
prefixed with "..." when it does not start at the beginning of the
text and suffixed with "..." when it does not reach the end. -/
theorem c9_snippet_found (text text_normalized : String)
    (keywords keywords_normalized : List String) (context pos : Nat)
    (hlen : context < text.length)
    (hfind : FormatResults.findKeywordPos (PyModel.lower text) keywords = some pos) :
    FormatResults.extract_snippet text text_normalized keywords keywords_normalized context =
      (if 0 < pos - context / 3 then "..." else "") ++
        PyModel.slice text (pos - context / 3)
          (min text.length (pos + (context - context / 3))) ++
        (if min text.length (pos + (context - context / 3)) < text.length then "..."
          else "") := by
  rw [FormatResults.extract_snippet, if_neg (by omega), hfind]
  rfl

/-- C9 witness: the amended theorem applied to a concrete text and the
keyword list ["zz", "a_"], whose first matching keyword "a_" (with the
`_` wildcard) matches at offset 0. -/
theorem c9_witness :
    FormatResults.extract_snippet "aa0123456789bb0123456789" "" ["zz", "a_"] [] 6 =
      (if 0 < 0 - 6 / 3 then "..." else "") ++
        PyModel.slice "aa0123456789bb0123456789" (0 - 6 / 3)
          (min ("aa0123456789bb0123456789" : String).length (0 + (6 - 6 / 3))) ++
        (if min ("aa0123456789bb0123456789" : String).length (0 + (6 - 6 / 3)) <
            ("aa0123456789bb0123456789" : String).length then "..." else "") :=
  c9_snippet_found "aa0123456789bb0123456789" "" ["zz", "a_"] [] 6 0 (by decide) (by decide)

/-- Every character of a run produced by `PyModel.runs` is a character
of the original list. -/
theorem mem_of_mem_runs (p : Char → Bool) :
    ∀ (cs : List Char) (r : Bool × List Char), r ∈ PyModel.runs p cs →
      ∀ c ∈ r.2, c ∈ cs := by
  intro cs
  induction cs with
  | nil => intro r hr; simp [PyModel.runs] at hr
  | cons c cs ih =>
    intro r hr d hd
    rw [PyModel.runs] at hr
    rcases hruns : PyModel.runs p cs with _ | ⟨⟨b, run⟩, rest⟩
    · rw [hruns] at hr
      simp only [List.mem_singleton] at hr
      subst hr
      simp only [List.mem_singleton] at hd
      simp [hd]
    · rw [hruns] at hr
      have hr' : r ∈ (if p c = b then (b, c :: run) :: rest
          else (p c, [c]) :: (b, run) :: rest) := hr
      by_cases hb : p c = b
      · rw [if_pos hb] at hr'
        rcases List.mem_cons.mp hr' with rfl | hr2
        · rcases List.mem_cons.mp hd with rfl | hd2
          · exact List.mem_cons_self _ _
          · exact List.mem_cons_of_mem _
              (ih (b, run) (hruns ▸ List.mem_cons_self _ _) d hd2)
        · exact List.mem_cons_of_mem _
            (ih r (hruns ▸ List.mem_cons_of_mem _ hr2) d hd)
      · rw [if_neg hb] at hr'
        rcases List.mem_cons.mp hr' with rfl | hr2
        · simp only [List.mem_singleton] at hd
          simp [hd]
        · exact List.mem_cons_of_mem _ (ih r (hruns ▸ hr2) d hd)

/-- On whitespace-only input the keyword stream is empty: every
segment consists of whitespace characters and is skipped. -/
theorem keywordStream_of_ws (jieba : Option (String → List String)) (text : String)
    (h : text.toList.all Char.isWhitespace = true) :
    HintKeywords.keywordStream jieba text = [] := by
  rw [HintKeywords.keywordStream]
  have hfil : (HintKeywords.segments text).filter
      (fun seg => !(seg.toList.all Char.isWhitespace)) = [] := by
    rw [List.filter_eq_nil_iff]
    intro seg hseg
    rw [HintKeywords.segments] at hseg
    rcases List.mem_map.mp hseg with ⟨r, hr, rfl⟩
    simp only [Bool.not_eq_true', Bool.not_eq_false]
    rw [List.all_eq_true]
    intro c hc
    have hcs : c ∈ text.toList := mem_of_mem_runs HintKeywords.isCJK text.toList r hr c hc
    exact List.all_eq_true.mp h c hcs
  rw [hfil]
  rfl

/-- The `seen`-set deduplication loop equals first-occurrence
deduplication of the stream with the already-seen elements removed. -/
theorem dedupSeen_eq : ∀ (l seen : List String),
    HintKeywords.dedupSeen seen l =
      HintKeywords.dedupFirst (l.filter (fun y => !seen.contains y)) := by
  intro l
  induction l with
  | nil =>
    intro seen
    simp [HintKeywords.dedupSeen, HintKeywords.dedupFirst]
  | cons k ks ih =>
    intro seen
    rw [HintKeywords.dedupSeen, List.filter_cons]
    by_cases h : seen.contains k = true
    · rw [if_pos h]
      have hkf : (!seen.contains k) = false := by rw [h]; rfl
      rw [hkf, if_neg (by decide)]
      exact ih seen
    · rw [if_neg h]
      have hf : seen.contains k = false := by
        cases hc : seen.contains k
        · rfl
        · exact absurd hc h
      have hkt : (!seen.contains k) = true := by rw [hf]; rfl
      rw [hkt, if_pos rfl, HintKeywords.dedupFirst, ih (k :: seen)]
      congr 2
      rw [List.filter_filter]
      refine List.filter_congr (fun y _ => ?_)
      simp only [List.contains_cons, Bool.not_or]
      cases hyk : y == k
      · have hne : ¬ (y = k) := by
          intro he
          subst he
          simp at hyk
        simp [hyk, hne]
      · have he : y = k := by simpa using hyk
        subst he
        simp

/-- Elements of the first-occurrence deduplication come from the
original list. -/
theorem mem_of_mem_dedupFirst :
    ∀ (l : List String) (y : String), y ∈ HintKeywords.dedupFirst l → y ∈ l := by
  intro l
  induction l using HintKeywords.dedupFirst.induct with
  | case1 =>
    intro y h
    simp [HintKeywords.dedupFirst] at h
  | case2 x xs ih =>
    intro y h
    rw [HintKeywords.dedupFirst] at h
    rcases List.mem_cons.mp h with rfl | h2
    · exact List.mem_cons_self _ _
    · exact List.mem_cons_of_mem _ (List.mem_of_mem_filter (ih y h2))

/-- First-occurrence deduplication yields a duplicate-free list. -/
theorem dedupFirst_nodup : ∀ l : List String, (HintKeywords.dedupFirst l).Nodup := by
  intro l
  induction l using HintKeywords.dedupFirst.induct with
  | case1 => simp [HintKeywords.dedupFirst]
  | case2 x xs ih =>
    rw [HintKeywords.dedupFirst]
    refine List.nodup_cons.mpr ⟨?_, ih⟩
    intro hmem
    have hx := mem_of_mem_dedupFirst _ _ hmem
    have := List.of_mem_filter hx
    simp at this

/-- The extractor output is the first-occurrence deduplication of the
keyword stream, truncated to the cap. -/
theorem extract_keywords_eq (jieba : Option (String → List String)) (text : String)
    (cap : Nat) :
    HintKeywords.extract_keywords jieba text cap =
      (HintKeywords.dedupFirst (HintKeywords.keywordStream jieba text)).take cap := by
  rw [HintKeywords.extract_keywords]
  by_cases hws : text.toList.all Char.isWhitespace = true
  · rw [if_pos hws, keywordStream_of_ws jieba text hws, HintKeywords.dedupFirst,
      List.take_nil]
  · rw [if_neg hws, dedupSeen_eq]
    congr 2
    refine List.filter_eq_self.mpr (fun y _ => ?_)
    rfl

/-- C7 counterexample: the claim says keywords come out ordered by
first appearance in the text including standalone digit groups, but a
Latin run's digit groups are appended after all its alphabetic words:
on "404 error" the extractor returns ["error", "404"] although "404"
appears first (offset 0, before "error" at offset 4). -/
theorem c7_counterexample :
    HintKeywords.extract_keywords none "404 error" 6 = ["error", "404"] ∧
    PyModel.litFind "404" "404 error" = some 0 ∧
    PyModel.litFind "error" "404 error" = some 4 := by
  refine ⟨by decide, by decide, by decide⟩

/-- C7 (amended): the keyword list is the first-occurrence
deduplication of the per-run keyword stream truncated to the cap,
where the stream concatenates the runs in text order and each Latin
run contributes its lowercased non-stopword alphabetic words of length
at least 3 in appearance order followed by that run's digit groups of
length at least 3 (digit groups are appended after the run's words,
not interleaved at their text positions), while each CJK run
contributes its segments in order; the result is duplicate-free and at
most cap long. -/
theorem c7_keyword_order :
    (∀ (jieba : Option (String → List String)) (text : String) (cap : Nat),
        HintKeywords.extract_keywords jieba text cap =
          (HintKeywords.dedupFirst (HintKeywords.keywordStream jieba text)).take cap) ∧
    (∀ (jieba : Option (String → List String)) (text : String) (cap : Nat),
        (HintKeywords.extract_keywords jieba text cap).Nodup) ∧
    (∀ (jieba : Option (String → List String)) (text : String) (cap : Nat),
        (HintKeywords.extract_keywords jieba text cap).length ≤ cap) := by
  refine ⟨extract_keywords_eq, fun jieba text cap => ?_, fun jieba text cap => ?_⟩
  · rw [extract_keywords_eq]
    exact (List.take_sublist _ _).nodup (dedupFirst_nodup _)
  · rw [extract_keywords_eq]
    exact List.length_take_le _ _

/-- The PMI term is never negative. -/
theorem pmiTerm_nonneg (count seed_total global_freq total_corpus : Nat) :
    0 ≤ Discovery.pmiTerm count seed_total global_freq total_corpus := by
  rw [Discovery.pmiTerm]
  split
  · next h =>
    refine Real.logb_nonneg (by norm_num) ?_
    have h1 : (1:ℚ) ≤ ((count : ℚ) / ((max seed_total 1 : Nat) : ℚ)) /
        ((global_freq : ℚ) / ((max total_corpus 1 : Nat) : ℚ)) :=
      (one_le_div h.1).mpr (le_of_lt h.2)
    exact_mod_cast h1
  · exact le_refl 0

/-- The PMI term is zero whenever the conditional probability does not
exceed the global probability. -/
theorem pmiTerm_eq_zero (count seed_total global_freq total_corpus : Nat)
    (hle : (count : ℚ) / ((max seed_total 1 : Nat) : ℚ) ≤
      (global_freq : ℚ) / ((max total_corpus 1 : Nat) : ℚ)) :
    Discovery.pmiTerm count seed_total global_freq total_corpus = 0 := by
  rw [Discovery.pmiTerm, if_neg]
  rintro ⟨h1, h2⟩
  exact absurd hle (not_le.mpr h2)

/-- The PMI term never decreases as the co-occurrence count grows. -/
theorem pmiTerm_mono (c1 c2 st gf tc : Nat) (h : c1 ≤ c2) :
    Discovery.pmiTerm c1 st gf tc ≤ Discovery.pmiTerm c2 st gf tc := by
  have hden : (0:ℚ) < ((max st 1 : Nat) : ℚ) := by
    have h1 : 0 < max st 1 := lt_of_lt_of_le Nat.zero_lt_one (le_max_right st 1)
    exact_mod_cast h1
  have hpc : (c1 : ℚ) / ((max st 1 : Nat) : ℚ) ≤ (c2 : ℚ) / ((max st 1 : Nat) : ℚ) :=
    (div_le_div_iff_of_pos_right hden).mpr (by exact_mod_cast h)
  by_cases h1 : 0 < (gf : ℚ) / ((max tc 1 : Nat) : ℚ) ∧
      (gf : ℚ) / ((max tc 1 : Nat) : ℚ) < (c1 : ℚ) / ((max st 1 : Nat) : ℚ)
  · have h2 : 0 < (gf : ℚ) / ((max tc 1 : Nat) : ℚ) ∧
        (gf : ℚ) / ((max tc 1 : Nat) : ℚ) < (c2 : ℚ) / ((max st 1 : Nat) : ℚ) :=
      ⟨h1.1, lt_of_lt_of_le h1.2 hpc⟩
    rw [Discovery.pmiTerm, Discovery.pmiTerm, if_pos h1, if_pos h2]
    have hr1 : (0:ℚ) < ((c1 : ℚ) / ((max st 1 : Nat) : ℚ)) /
        ((gf : ℚ) / ((max tc 1 : Nat) : ℚ)) :=
      div_pos (lt_trans h1.1 h1.2) h1.1
    have hrle : ((c1 : ℚ) / ((max st 1 : Nat) : ℚ)) /
          ((gf : ℚ) / ((max tc 1 : Nat) : ℚ)) ≤
        ((c2 : ℚ) / ((max st 1 : Nat) : ℚ)) /
          ((gf : ℚ) / ((max tc 1 : Nat) : ℚ)) :=
      (div_le_div_iff_of_pos_right h1.1).mpr hpc
    refine Real.logb_le_logb_of_le (by norm_num) ?_ ?_
    · exact_mod_cast hr1
    · exact_mod_cast hrle
  · rw [show Discovery.pmiTerm c1 st gf tc = 0 from by
      rw [Discovery.pmiTerm, if_neg h1]]
    exact pmiTerm_nonneg c2 st gf tc

/-- The PMI term strictly increases with the co-occurrence count once
the conditional probability at the smaller count already exceeds the
global probability. -/
theorem pmiTerm_strict_mono (c1 c2 st gf tc : Nat) (h : c1 < c2)
    (hpw : 0 < (gf : ℚ) / ((max tc 1 : Nat) : ℚ))
    (hgt : (gf : ℚ) / ((max tc 1 : Nat) : ℚ) < (c1 : ℚ) / ((max st 1 : Nat) : ℚ)) :
    Discovery.pmiTerm c1 st gf tc < Discovery.pmiTerm c2 st gf tc := by
  have hden : (0:ℚ) < ((max st 1 : Nat) : ℚ) := by
    have h1 : 0 < max st 1 := lt_of_lt_of_le Nat.zero_lt_one (le_max_right st 1)
    exact_mod_cast h1
  have hpc : (c1 : ℚ) / ((max st 1 : Nat) : ℚ) < (c2 : ℚ) / ((max st 1 : Nat) : ℚ) :=
    (div_lt_div_iff_of_pos_right hden).mpr (by exact_mod_cast h)
  have h1 : 0 < (gf : ℚ) / ((max tc 1 : Nat) : ℚ) ∧
      (gf : ℚ) / ((max tc 1 : Nat) : ℚ) < (c1 : ℚ) / ((max st 1 : Nat) : ℚ) := ⟨hpw, hgt⟩
  have h2 : 0 < (gf : ℚ) / ((max tc 1 : Nat) : ℚ) ∧
      (gf : ℚ) / ((max tc 1 : Nat) : ℚ) < (c2 : ℚ) / ((max st 1 : Nat) : ℚ) :=
    ⟨hpw, lt_trans hgt hpc⟩
  rw [Discovery.pmiTerm, Discovery.pmiTerm, if_pos h1, if_pos h2]
  have hr1 : (0:ℚ) < ((c1 : ℚ) / ((max st 1 : Nat) : ℚ)) /
      ((gf : ℚ) / ((max tc 1 : Nat) : ℚ)) :=
    div_pos (lt_trans hpw hgt) hpw
  have hrlt : ((c1 : ℚ) / ((max st 1 : Nat) : ℚ)) /
        ((gf : ℚ) / ((max tc 1 : Nat) : ℚ)) <
      ((c2 : ℚ) / ((max st 1 : Nat) : ℚ)) /
        ((gf : ℚ) / ((max tc 1 : Nat) : ℚ)) :=
    (div_lt_div_iff_of_pos_right hpw).mpr hpc
  refine Real.logb_lt_logb (by norm_num) ?_ ?_
  · exact_mod_cast hr1
  · exact_mod_cast hrlt

/-- C8 counterexample: increasing the co-occurrence count does not
always strictly increase the PMI term: with seed_total 10, global
frequency 5 and corpus total 10 (so P(word) = 1/2), the counts 3 and 4
give conditional probabilities 3/10 and 4/10, both at most P(word), so
the PMI term is 0 at both counts. -/
theorem c8_counterexample :
    (3:Nat) < 4 ∧
    Discovery.pmiTerm 3 10 5 10 = 0 ∧
    Discovery.pmiTerm 4 10 5 10 = 0 := by
  refine ⟨by norm_num, ?_, ?_⟩
  · refine pmiTerm_eq_zero 3 10 5 10 ?_
    rw [show ((max 10 1 : Nat) : ℚ) = 10 from by norm_num]
    norm_num
  · refine pmiTerm_eq_zero 4 10 5 10 ?_
    rw [show ((max 10 1 : Nat) : ℚ) = 10 from by norm_num]
    norm_num

/-- C8 (amended): the PMI term is never negative and is 0 whenever
P(word|seed) ≤ P(word) (first two conjuncts, as claimed); with fixed
seed_total and global frequency it is monotone non-decreasing in the
co-occurrence count (third conjunct), and strictly increasing provided
the conditional probability at the smaller count already exceeds
P(word) (fourth conjunct) — without that proviso both terms can sit in
the zero branch, so the claimed unconditional strictness fails. -/
theorem c8_pmi_term :
    (∀ count seed_total global_freq total_corpus : Nat,
        0 ≤ Discovery.pmiTerm count seed_total global_freq total_corpus) ∧
    (∀ count seed_total global_freq total_corpus : Nat,
        (count : ℚ) / ((max seed_total 1 : Nat) : ℚ) ≤
          (global_freq : ℚ) / ((max total_corpus 1 : Nat) : ℚ) →
        Discovery.pmiTerm count seed_total global_freq total_corpus = 0) ∧
    (∀ c1 c2 st gf tc : Nat, c1 ≤ c2 →
        Discovery.pmiTerm c1 st gf tc ≤ Discovery.pmiTerm c2 st gf tc) ∧
    (∀ c1 c2 st gf tc : Nat, c1 < c2 →
        0 < (gf : ℚ) / ((max tc 1 : Nat) : ℚ) →
        (gf : ℚ) / ((max tc 1 : Nat) : ℚ) < (c1 : ℚ) / ((max st 1 : Nat) : ℚ) →
        Discovery.pmiTerm c1 st gf tc < Discovery.pmiTerm c2 st gf tc) :=
  ⟨pmiTerm_nonneg, pmiTerm_eq_zero, pmiTerm_mono, pmiTerm_strict_mono⟩

/-- C8 witness: the strict conjunct applied at counts 2 < 3 with
seed_total 4, global frequency 1 and corpus total 100, where
P(word) = 1/100 is positive and below P(word|seed) = 2/4. -/
theorem c8_witness : Discovery.pmiTerm 2 4 1 100 < Discovery.pmiTerm 3 4 1 100 :=
  c8_pmi_term.2.2.2 2 3 4 1 100 (by norm_num)
    (by rw [show ((max 100 1 : Nat) : ℚ) = 100 from by norm_num]; norm_num)
    (by rw [show ((max 100 1 : Nat) : ℚ) = 100 from by norm_num,
          show ((max 4 1 : Nat) : ℚ) = 4 from by norm_num]
        norm_num)
